import Mathlib

/-!
Verification of the BigFloat.js arbitrary-precision binary floating-point
library (src/src/BigFloat.js) against its natural-language specification.

The JavaScript number object is embedded as a Lean structure whose fields
mirror `_sign`, `_exponent`, `_significand`, `_precision`, `_rounding` and
`_special`.  The `_bits` cache is omitted: `_bitlength()` always returns the
true bit length of the significand (recomputing it from the hex string when
the cache is stale), so the cache is observable only through performance.

Special values and rounding modes are kept as the integer codes the source
uses (SPECIAL_NONE = 0 … SPECIAL_NAN = 3, ROUNDING_NEAREST = 0 …
ROUNDING_ZERO = 3), so that JavaScript truthiness tests such as
`if (a._special || b._special)` translate literally to `≠ 0` tests.

BigInt values become `Nat` (the significand is stored non-negative) or `Int`
(signed intermediates); machine numbers used for exponents become `Int`.
Operations that `throw` are embedded in `Except String`.
-/

namespace BigFloatJS

/-- Special-value code `SPECIAL_NONE = 0` (normal finite number). -/
def SPECIAL_NONE : Nat := 0

/-- Special-value code `SPECIAL_ZERO = 1`. -/
def SPECIAL_ZERO : Nat := 1

/-- Special-value code `SPECIAL_INF = 2`. -/
def SPECIAL_INF : Nat := 2

/-- Special-value code `SPECIAL_NAN = 3`. -/
def SPECIAL_NAN : Nat := 3

/-- Rounding-mode code `ROUNDING_NEAREST = 0`. -/
def ROUNDING_NEAREST : Nat := 0

/-- Rounding-mode code `ROUNDING_UP = 1`. -/
def ROUNDING_UP : Nat := 1

/-- Rounding-mode code `ROUNDING_DOWN = 2`. -/
def ROUNDING_DOWN : Nat := 2

/-- Rounding-mode code `ROUNDING_ZERO = 3`. -/
def ROUNDING_ZERO : Nat := 3

/-- `BigFloat.defaultPrecision = 20` (the initial value of the process-wide
default; constructors read it when the caller omits the argument). -/
def defaultPrecision : Nat := 20

/-- `BigFloat.defaultRounding = BigFloat.RoundingMode.NEAREST`. -/
def defaultRounding : Nat := ROUNDING_NEAREST

/-- The BigFloat record: `_sign`, `_exponent`, `_significand`, `_precision`,
`_rounding`, `_special` of the source (the `_bits` cache is omitted, see the
file header). -/
structure BigFloat where
  sign : Int
  exponent : Int
  significand : Nat
  precision : Nat
  rounding : Nat
  special : Nat
  deriving Repr, DecidableEq

/-- Fuel-driven core of the bit-length computation: number of binary digits
of `n`, with `fuel ≥ n` guaranteeing enough iterations. -/
def bitlenAux : Nat → Nat → Nat
  | 0, _ => 0
  | fuel + 1, n => if n = 0 then 0 else bitlenAux fuel (n / 2) + 1

/-- `BigFloat.prototype._bitlength()`: the bit length of the significand
(the source measures it from the hexadecimal string; the result is the
number of binary digits, 0 for 0). -/
def bitlen (n : Nat) : Nat := bitlenAux n n

/-- The binary working width of `_normalize`:
`Math.ceil((precision + 1) * 3.321928094887362)`, modelled with the decimal
literal as the exact rational 3321928094887362 / 10^15 and a ceiling
division. -/
def targetBitsOf (precision : Nat) : Nat :=
  ((precision + 1) * 3321928094887362 + (10 ^ 15 - 1)) / 10 ^ 15

/-- The `switch (this._rounding)` of `_normalize` computing `roundUp`.
`droppedBits` and `sigShifted` are the significand split
`significand mod 2^bitsToRemove` / `significand div 2^bitsToRemove`;
the default case is the dead ties-to-even branch of the source. -/
def roundUpOf (rounding : Nat) (sign : Int) (bitsToRemove droppedBits sigShifted : Nat) :
    Bool :=
  if rounding = ROUNDING_NEAREST then
    decide (droppedBits &&& (1 <<< (bitsToRemove - 1)) ≠ 0)
  else if rounding = ROUNDING_UP then
    if sign > 0 then decide (droppedBits > 0) else false
  else if rounding = ROUNDING_DOWN then
    if sign < 0 then decide (droppedBits > 0) else false
  else if rounding = ROUNDING_ZERO then
    false
  else
    decide (droppedBits > 2 ^ (bitsToRemove - 1) ∨
      (droppedBits = 2 ^ (bitsToRemove - 1) ∧ sigShifted % 2 = 1))

/-- `BigFloat.prototype._normalize()`: round the significand down to the
working binary width `targetBitsOf precision`, applying the rounding mode,
with the source's carry-overflow test
`isPowerOf2 && significand > (1n << BigInt(targetBits))` kept verbatim. -/
def normalize (s : BigFloat) : BigFloat :=
  let targetBits := targetBitsOf s.precision
  let currentBits := bitlen s.significand
  if currentBits ≤ targetBits then
    { s with special := if s.significand = 0 then SPECIAL_ZERO else SPECIAL_NONE }
  else
    let bitsToRemove := currentBits - targetBits
    let droppedBits := s.significand % 2 ^ bitsToRemove
    let sigShifted := s.significand / 2 ^ bitsToRemove
    let roundUp := roundUpOf s.rounding s.sign bitsToRemove droppedBits sigShifted
    let sigExp : Nat × Int :=
      if roundUp then
        let sigUp := sigShifted + 1
        let isPowerOf2 := sigUp &&& (sigUp - 1) = 0
        if isPowerOf2 ∧ sigUp > 2 ^ targetBits then
          (sigUp / 2, s.exponent + 1)
        else
          (sigUp, s.exponent)
      else
        (sigShifted, s.exponent)
    { s with
      significand := sigExp.1
      exponent := sigExp.2
      special := if sigExp.1 = 0 then SPECIAL_ZERO else SPECIAL_NONE }

/-- `new BigFloat(NaN, prec, rounding)` via `_fromNumber`:
`Math.sign(NaN) || 1` gives sign `+1`; significand and exponent keep their
constructor defaults `0`. -/
def mkNaNP (prec rounding : Nat) : BigFloat :=
  { sign := 1, exponent := 0, significand := 0,
    precision := prec, rounding := rounding, special := SPECIAL_NAN }

/-- `new BigFloat(NaN)` with the default precision and rounding. -/
def mkNaN : BigFloat := mkNaNP defaultPrecision defaultRounding

/-- `new BigFloat(±Infinity, prec, rounding)` via `_fromNumber`
(`s` is the sign of the host number). -/
def mkInfP (s : Int) (prec rounding : Nat) : BigFloat :=
  { sign := s, exponent := 0, significand := 0,
    precision := prec, rounding := rounding, special := SPECIAL_INF }

/-- `new BigFloat(±Infinity)` with the default precision and rounding. -/
def mkInf (s : Int) : BigFloat := mkInfP s defaultPrecision defaultRounding

/-- `new BigFloat(0)` via the `num === 0` branch of `_fromNumber`:
a `+ZERO` with the default precision and rounding. -/
def mkZeroNum : BigFloat :=
  { sign := 1, exponent := 0, significand := 0,
    precision := defaultPrecision, rounding := defaultRounding,
    special := SPECIAL_ZERO }

/-- `new BigFloat(v, prec, rounding)` for a host BigInt `v`: store `|v|` and
the sign, then `_normalizeBits()` (exponent becomes bit length − 1, special
becomes NONE, or the canonical +ZERO when `v = 0`). -/
def ofBigInt (v : Int) (prec rounding : Nat) : BigFloat :=
  let m := v.natAbs
  if m = 0 then
    { sign := 1, exponent := 0, significand := 0,
      precision := prec, rounding := rounding, special := SPECIAL_ZERO }
  else
    { sign := if v < 0 then -1 else 1,
      exponent := (bitlen m : Int) - 1,
      significand := m,
      precision := prec, rounding := rounding, special := SPECIAL_NONE }

/-- `new BigFloat(n, prec, rounding)` for an integer host number `n`, the
`Number.isInteger` branch of `_fromNumber` (same normalization as the
BigInt path; `_normalize` is not called on this path). -/
def ofNumberInt (n : Int) (prec rounding : Nat) : BigFloat :=
  if n = 0 then
    { sign := 1, exponent := 0, significand := 0,
      precision := prec, rounding := rounding, special := SPECIAL_ZERO }
  else
    { sign := if n < 0 then -1 else 1,
      exponent := (bitlen n.natAbs : Int) - 1,
      significand := n.natAbs,
      precision := prec, rounding := rounding, special := SPECIAL_NONE }

/-- The effective exponent of the least significant bit,
`exponent - (bitlength - 1)`, used by `add` and `less`. -/
def effExpOf (x : BigFloat) : Int :=
  x.exponent - ((bitlen x.significand : Int) - 1)

/-- The signed sum of the two significands after aligning both operands to
the smaller effective exponent (the shift/align block of `BigFloat.add`). -/
def alignedSum (a b : BigFloat) : Int :=
  let effExpX := effExpOf a
  let effExpY := effExpOf b
  if effExpX > effExpY then
    a.sign * (a.significand * 2 ^ (effExpX - effExpY).toNat : Nat) + b.sign * b.significand
  else if effExpY > effExpX then
    a.sign * a.significand + b.sign * (b.significand * 2 ^ (effExpY - effExpX).toNat : Nat)
  else
    a.sign * a.significand + b.sign * b.significand

/-- The normal-operand path of `BigFloat.add` (after the special-value
block): align, form the signed sum, return `new BigFloat(0n)` on a zero sum
— note the source constructs that zero with the process-wide default
precision, not `workPrec` — else build the result and `_normalize()`. -/
def addNormal (a b : BigFloat) : BigFloat :=
  let workPrec := max a.precision b.precision
  let commonEffExp := min (effExpOf a) (effExpOf b)
  let sumSig := alignedSum a b
  if sumSig = 0 then
    ofBigInt 0 defaultPrecision defaultRounding
  else
    let mag := sumSig.natAbs
    normalize
      { sign := if sumSig < 0 then -1 else 1,
        exponent := commonEffExp + ((bitlen mag : Int) - 1),
        significand := mag,
        precision := workPrec,
        rounding := a.rounding,
        special := if mag ≠ 0 then SPECIAL_NONE else SPECIAL_ZERO }

/-- `BigFloat.add(a, b)`: the special-value block
(`if (a._special || b._special) { … }`) followed by the normal path. -/
def add (a b : BigFloat) : BigFloat :=
  if a.special ≠ 0 ∨ b.special ≠ 0 then
    if a.special = SPECIAL_NAN ∨ b.special = SPECIAL_NAN then mkNaN
    else if a.special = SPECIAL_INF ∧ b.special = SPECIAL_INF then
      if a.sign = b.sign then a else mkNaN
    else if a.special = SPECIAL_INF then a
    else if b.special = SPECIAL_INF then b
    else if a.special = SPECIAL_ZERO then b
    else if b.special = SPECIAL_ZERO then a
    else addNormal a b
  else addNormal a b

/-- `BigFloat.sub(a, b)`: clone `b`, flip its sign unconditionally, then
delegate to `add`. -/
def sub (a b : BigFloat) : BigFloat :=
  add a { b with sign := -b.sign }

/-- `BigFloat.neg(a)`: clone; zeros pass through unchanged, INF and NORMAL
flip their sign (NaN keeps its sign). -/
def neg (a : BigFloat) : BigFloat :=
  if a.special = SPECIAL_ZERO ∨ a.significand = 0 then a
  else if a.special = SPECIAL_INF ∨ a.special = SPECIAL_NONE then
    { a with sign := -a.sign }
  else a

/-- `BigFloat.mul(a, b)`: special cases in source order (NaN, then ZERO,
then INF), then the product with extra-carry-bit detection and
`_normalize()`. -/
def mul (a b : BigFloat) : BigFloat :=
  if a.special = SPECIAL_NAN ∨ b.special = SPECIAL_NAN then mkNaN
  else if a.special = SPECIAL_ZERO ∨ b.special = SPECIAL_ZERO then mkZeroNum
  else if a.special = SPECIAL_INF ∨ b.special = SPECIAL_INF then
    if a.sign * b.sign > 0 then mkInf 1 else mkInf (-1)
  else
    let sig := a.significand * b.significand
    let exp := a.exponent + b.exponent
    let aBits := bitlen a.significand
    let bBits := bitlen b.significand
    let productBits := bitlen sig
    let exp2 := if (productBits : Int) > (aBits : Int) + (bBits : Int) - 1 then exp + 1 else exp
    normalize
      { sign := a.sign * b.sign,
        exponent := exp2,
        significand := sig,
        precision := max a.precision b.precision,
        rounding := a.rounding,
        special := if sig ≠ 0 then SPECIAL_NONE else SPECIAL_ZERO }

/-- Outcome of the statements of `BigFloat.div` up to the point where
control enters `BigFloat.inverse` / `BigFloat.mul`: `result = some r` is an
early `return r`; `result = none` means execution continues into the
Newton-iteration tail, which constructs only fresh numbers and never writes
to `a` or `b`.  `bFinal` is the state of the operand `b` when `div`
returns: the source aliases `inv = b` and executes `inv._precision = prec`,
mutating the caller's `b`. -/
structure DivOut where
  result : Option BigFloat
  bFinal : BigFloat
  deriving Repr, DecidableEq

/-- `BigFloat.div(a, b)`: special cases (`b` ZERO, `b` INF, NaN), the
`b === 1` fast path, the aliased `inv._precision = prec` write, and the
power-of-two fast paths, in source order. -/
def divHead (a b : BigFloat) : DivOut :=
  if b.special = SPECIAL_ZERO then ⟨some (mkInf 1), b⟩
  else if b.special = SPECIAL_INF then ⟨some (ofBigInt 0 defaultPrecision defaultRounding), b⟩
  else if (a.special ≠ 0 ∨ b.special ≠ 0) ∧
      (a.special = SPECIAL_NAN ∨ b.special = SPECIAL_NAN) then ⟨some mkNaN, b⟩
  else
    let prec := max a.precision b.precision
    if b.exponent = 0 ∧ b.significand = 1 then
      ⟨some { a with precision := prec }, b⟩
    else
      let b2 := { b with precision := prec }
      if a.exponent = 0 ∧ a.significand = 1 then
        ⟨none, b2⟩
      else if a.significand = 1 ∧ b.significand = 1 then
        ⟨some { sign := a.sign * b.sign, exponent := a.exponent - b.exponent,
                significand := 1, precision := prec, rounding := a.rounding,
                special := SPECIAL_NONE }, b2⟩
      else if b.significand = 1 then
        ⟨some { a with
                  precision := prec
                  exponent := a.exponent - b.exponent
                  sign := a.sign * b.sign }, b2⟩
      else if a.significand = 1 then
        ⟨none, b2⟩
      else
        ⟨none, b2⟩

/-- `BigFloat.ldexp(x, exp)`: specials pass through as fresh specials,
otherwise add `exp` to the exponent and `_normalize()`. -/
def ldexp (x : BigFloat) (e : Int) : BigFloat :=
  if x.special = SPECIAL_ZERO then ofBigInt 0 x.precision x.rounding
  else if x.special = SPECIAL_NAN then mkNaN
  else if x.special = SPECIAL_INF then
    (if x.sign > 0 then mkInf 1 else mkInf (-1))
  else
    normalize { x with exponent := x.exponent + e }

/-- `BigFloat.frexp(x)`: returns `[mantissa, exp]` where `mantissa` is
`new BigFloat(x)` — a clone of `x` whose `_exponent` is NOT reset — and
`exp = x._exponent`. -/
def frexp (x : BigFloat) : BigFloat × Int :=
  if x.special = SPECIAL_ZERO then (ofBigInt 0 x.precision x.rounding, 0)
  else if x.special = SPECIAL_NAN then (mkNaN, 0)
  else if x.special = SPECIAL_INF then
    ((if x.sign > 0 then mkInf 1 else mkInf (-1)), 0)
  else
    (x, x.exponent)

/-- `BigFloat.trunc(x)`: specials to fresh specials; integers (effective
exponent ≥ 0) are cloned; otherwise the fractional bits are shifted off and
the signed integer is rebuilt through the BigInt constructor. -/
def trunc (x : BigFloat) : BigFloat :=
  if x.special = SPECIAL_ZERO then ofBigInt 0 x.precision x.rounding
  else if x.special = SPECIAL_INF then
    (if x.sign > 0 then mkInfP 1 x.precision x.rounding else mkInfP (-1) x.precision x.rounding)
  else if x.special = SPECIAL_NAN then mkNaNP x.precision x.rounding
  else
    let effExp := effExpOf x
    if effExp ≥ 0 then x
    else
      let fracBits := (-effExp).toNat
      let resultInt : Int := (x.significand / 2 ^ fracBits : Nat)
      ofBigInt (if x.sign < 0 then -resultInt else resultInt) x.precision x.rounding

/-- `BigFloat.prototype.toBigInt()`: the only documented hard failure path —
`throw new RangeError` on NaN and on Infinity — then truncate and scale. -/
def toBigIntE (x : BigFloat) : Except String Int :=
  if x.special = SPECIAL_NAN then .error ("Cannot convert NaN to BigInt")
  else if x.special = SPECIAL_INF then .error ("Cannot convert Infinity to BigInt")
  else if x.special = SPECIAL_ZERO ∨ x.significand = 0 then .ok 0
  else
    let t := trunc x
    let effExp := effExpOf t
    let r : Int := if effExp ≥ 0 then (t.significand * 2 ^ effExp.toNat : Nat)
      else (t.significand / 2 ^ (-effExp).toNat : Nat)
    .ok (if t.sign < 0 then -r else r)

/-- The throwing guard of `BigFloat.fmod`:
`if (b._significand === 0n) throw new Error("Division by zero in fmod")`.
The remainder of `fmod` is the composition
`sub(a, mul(trunc(div(a, b)), b))`, whose statements contain no `throw`. -/
def fmodHead (a b : BigFloat) : Except String Unit :=
  if b.significand = 0 then .error ("Division by zero in fmod")
  else .ok ()

/-- The statements of `BigFloat.pow` through the `x = ±Infinity` branch.
`.error` models a thrown host exception: in the `x._sign < 0` sub-branch
the source calls `BigFloat.isInteger(y)`, but `isInteger` exists only on
`BigFloat.prototype`, never as a static, so the property access yields
`undefined` and the call throws a TypeError.  `.ok none` means execution
continues past the modelled branch (finite `x`). -/
def powHead (x y : BigFloat) : Except String (Option BigFloat) :=
  if x.special = SPECIAL_NAN then .ok (some mkNaN)
  else if y.special = SPECIAL_NAN then .ok (some mkNaN)
  else if x.special = SPECIAL_INF then
    if y.special = SPECIAL_ZERO ∨ y.significand = 0 then
      .ok (some (ofBigInt 1 x.precision x.rounding))
    else if y.sign < 0 then
      .ok (some (ofBigInt 0 x.precision x.rounding))
    else if x.sign < 0 then
      .error ("TypeError: BigFloat.isInteger is not a function")
    else
      .ok (some (mkInf 1))
  else
    .ok none

/-- `BigFloat.equal(a, b)`: NaN unequal to everything; zeros equal
regardless of sign; infinities equal iff signs match; otherwise the stored
`_sign`, `_exponent` and `_significand` fields are compared directly. -/
def equal (a b : BigFloat) : Bool :=
  if a.special = SPECIAL_NAN ∨ b.special = SPECIAL_NAN then false
  else if a.special = SPECIAL_ZERO ∧ b.special = SPECIAL_ZERO then true
  else if a.special = SPECIAL_INF ∧ b.special = SPECIAL_INF then
    decide (a.sign = b.sign)
  else
    decide (a.sign = b.sign ∧ a.exponent = b.exponent ∧ a.significand = b.significand)

/-- `BigFloat.less(a, b)`: NaN always false, sign decides first, special
cases, then both significands are rescaled to the common (minimum)
effective LSB exponent and the scaled magnitudes are compared. -/
def less (a b : BigFloat) : Bool :=
  if a.special = SPECIAL_NAN ∨ b.special = SPECIAL_NAN then false
  else if a.sign < b.sign then true
  else if a.sign > b.sign then false
  else
    if a.special = SPECIAL_INF ∧ b.special = SPECIAL_INF then false
    else if a.special = SPECIAL_INF then decide (a.sign < 0)
    else if b.special = SPECIAL_INF then decide (a.sign > 0)
    else if a.special = SPECIAL_ZERO ∧ b.special = SPECIAL_ZERO then false
    else if a.special = SPECIAL_ZERO then decide (a.sign > 0)
    else if b.special = SPECIAL_ZERO then decide (a.sign < 0)
    else
      let effExpA := effExpOf a
      let effExpB := effExpOf b
      let commonEffExp := min effExpA effExpB
      let scaledSigA := a.significand * 2 ^ (effExpA - commonEffExp).toNat
      let scaledSigB := b.significand * 2 ^ (effExpB - commonEffExp).toNat
      if scaledSigA ≠ scaledSigB then
        if a.sign > 0 then decide (scaledSigA < scaledSigB)
        else decide (scaledSigA > scaledSigB)
      else false

/-- `BigFloat.cmp(a, b) ∈ {-1, 0, 1}` built from `less`. -/
def cmp (a b : BigFloat) : Int :=
  if less a b then -1 else if less b a then 1 else 0

/-! Supporting lemmas -/

/-- Fuel adequacy of the bit-length computation: with enough fuel the result
bounds the input, `n < 2 ^ bitlenAux fuel n`. -/
theorem lt_two_pow_bitlenAux (fuel : Nat) :
    ∀ n : Nat, n ≤ fuel → n < 2 ^ bitlenAux fuel n := by
  induction fuel with
  | zero =>
    intro n hn
    simp only [Nat.le_zero] at hn
    simp [hn, bitlenAux]
  | succ fuel ih =>
    intro n hn
    by_cases h0 : n = 0
    · simp [h0, bitlenAux]
    · have hdiv : n / 2 ≤ fuel := by omega
      have := ih (n / 2) hdiv
      have hpow : n < 2 ^ (bitlenAux fuel (n / 2) + 1) := by
        have h2 : n ≤ 2 * (n / 2) + 1 := by omega
        calc n ≤ 2 * (n / 2) + 1 := h2
          _ < 2 * 2 ^ bitlenAux fuel (n / 2) := by omega
          _ = 2 ^ (bitlenAux fuel (n / 2) + 1) := by ring
      simpa [bitlenAux, h0] using hpow

/-- Every natural number is below `2 ^ bitlen n`. -/
theorem lt_two_pow_bitlen (n : Nat) : n < 2 ^ bitlen n :=
  lt_two_pow_bitlenAux n n le_rfl

/-- `equal` is symmetric in its operands. -/
theorem equal_comm (a b : BigFloat) : equal a b = equal b a := by
  unfold equal
  split_ifs with h1 h2 h3 h4 h5 h6 <;> try rfl
  all_goals try tauto
  · simp [eq_comm]
  · simp only [decide_eq_decide]
    constructor <;> rintro ⟨x, y, z⟩ <;> exact ⟨x.symm, y.symm, z.symm⟩

/-- Under the representation invariants, two numbers the field-wise `equal`
deems equal are never strictly ordered by `less`. -/
theorem less_eq_false_of_equal (a b : BigFloat)
    (ha : a.special = SPECIAL_ZERO ∨ a.special = SPECIAL_NONE)
    (hb : b.special = SPECIAL_ZERO ∨ b.special = SPECIAL_NONE)
    (hza : a.special = SPECIAL_ZERO ↔ a.significand = 0)
    (hzb : b.special = SPECIAL_ZERO ↔ b.significand = 0)
    (hsa : a.special = SPECIAL_ZERO → a.sign = 1)
    (hsb : b.special = SPECIAL_ZERO → b.sign = 1)
    (h : equal a b = true) : less a b = false := by
  unfold equal at h
  split_ifs at h with h1 h2 h3
  · -- both operands ZERO, both with sign +1
    have hs1 := hsa h2.1
    have hs2 := hsb h2.2
    simp [less, h2.1, h2.2, hs1, hs2, SPECIAL_ZERO, SPECIAL_NAN, SPECIAL_INF]
  · -- both INF contradicts finiteness
    rcases ha with h' | h' <;>
      simp [SPECIAL_ZERO, SPECIAL_NONE, SPECIAL_INF] at h' h3 <;> omega
  · -- field-wise equality of two non-special records
    have hfields := of_decide_eq_true h
    obtain ⟨hs, he, hg⟩ := hfields
    by_cases haz : a.special = SPECIAL_ZERO
    · exfalso
      have hb0 : b.significand = 0 := hg ▸ hza.mp haz
      exact h2 ⟨haz, hzb.mpr hb0⟩
    · have haN : a.special = SPECIAL_NONE := ha.resolve_left haz
      by_cases hbz : b.special = SPECIAL_ZERO
      · exfalso
        have ha0 : a.significand = 0 := hg ▸ hzb.mp hbz
        exact haz (hza.mpr ha0)
      · have hbN : b.special = SPECIAL_NONE := hb.resolve_left hbz
        simp [less, haN, hbN, hs, he, hg, effExpOf,
          SPECIAL_ZERO, SPECIAL_NONE, SPECIAL_INF, SPECIAL_NAN]

/-! Claim C1 -/

/-- C1 counterexample: `div(NaN, 0)` returns `+Infinity`, not `NaN` — the
`b._special === SPECIAL_ZERO` check precedes the NaN check, so NaN is not
contagious through `div` when the divisor is zero. -/
theorem div_nan_by_zero_returns_inf :
    divHead mkNaN mkZeroNum = ⟨some (mkInf 1), mkZeroNum⟩ ∧ mkInf 1 ≠ mkNaN := by
  decide

/-- C1 (amended): with a NaN operand, `add`, `sub` and `mul` always return
NaN, and `div` returns NaN provided the divisor is not ZERO (which returns
`+Infinity` first) and not INF (which returns `+0` first). -/
theorem nan_contagion_amended (a b : BigFloat)
    (h : a.special = SPECIAL_NAN ∨ b.special = SPECIAL_NAN)
    (hbz : b.special ≠ SPECIAL_ZERO) (hbi : b.special ≠ SPECIAL_INF) :
    add a b = mkNaN ∧ sub a b = mkNaN ∧ mul a b = mkNaN ∧
      (divHead a b).result = some mkNaN := by
  have houter : a.special ≠ 0 ∨ b.special ≠ 0 := by
    rcases h with h' | h' <;> [left; right] <;> simp [h', SPECIAL_NAN]
  refine ⟨?_, ?_, ?_, ?_⟩
  · unfold add
    rw [if_pos houter, if_pos h]
  · unfold sub add
    rw [if_pos (by simpa using houter), if_pos (by simpa using h)]
  · unfold mul
    rw [if_pos h]
  · unfold divHead
    rw [if_neg hbz, if_neg hbi, if_pos ⟨houter, h⟩]

/-- C1 witness: a concrete NaN dividend with a normal divisor. -/
theorem nan_contagion_amended_witness :
    (mkNaN.special = SPECIAL_NAN ∨ (ofNumberInt 7 20 0).special = SPECIAL_NAN) ∧
      (add mkNaN (ofNumberInt 7 20 0) = mkNaN ∧
        sub mkNaN (ofNumberInt 7 20 0) = mkNaN ∧
        mul mkNaN (ofNumberInt 7 20 0) = mkNaN ∧
        (divHead mkNaN (ofNumberInt 7 20 0)).result = some mkNaN) :=
  ⟨by decide,
    nan_contagion_amended mkNaN (ofNumberInt 7 20 0) (by decide) (by decide) (by decide)⟩

/-! Claim C2 -/

/-- C2 counterexample: `mul(0, +∞)` returns `+ZERO`, not `NaN` — the ZERO
check precedes the INF check in `mul`. -/
theorem mul_zero_times_inf_returns_zero :
    mul mkZeroNum (mkInf 1) = mkZeroNum ∧ mkZeroNum ≠ mkNaN := by
  decide

/-- C2 (amended): on special operands `mul` applies, in order: any NaN →
NaN; any ZERO → `+ZERO` (even when the other operand is INF); otherwise an
INF operand → INF with sign `sa · sb`.  `mul(0, ±∞)` is `+ZERO`, not NaN. -/
theorem mul_special_table_amended (a b : BigFloat)
    (ha : a.special < 4) (hb : b.special < 4)
    (h : a.special ≠ 0 ∨ b.special ≠ 0) :
    mul a b =
      if a.special = SPECIAL_NAN ∨ b.special = SPECIAL_NAN then mkNaN
      else if a.special = SPECIAL_ZERO ∨ b.special = SPECIAL_ZERO then mkZeroNum
      else if a.sign * b.sign > 0 then mkInf 1 else mkInf (-1) := by
  by_cases h1 : a.special = SPECIAL_NAN ∨ b.special = SPECIAL_NAN
  · simp [mul, h1]
  · by_cases h2 : a.special = SPECIAL_ZERO ∨ b.special = SPECIAL_ZERO
    · simp [mul, h1, h2]
    · have h3 : a.special = SPECIAL_INF ∨ b.special = SPECIAL_INF := by
        simp only [SPECIAL_NAN, SPECIAL_ZERO, SPECIAL_INF, not_or] at h1 h2 ⊢
        omega
      simp [mul, h1, h2, h3]

/-- C2 witness: `mul(+ZERO, +∞)` lands in the ZERO row of the table. -/
theorem mul_special_table_amended_witness :
    mkZeroNum.special < 4 ∧ (mkInf 1).special < 4 ∧
      (mkZeroNum.special ≠ 0 ∨ (mkInf 1).special ≠ 0) ∧
      (mul mkZeroNum (mkInf 1) =
        if mkZeroNum.special = SPECIAL_NAN ∨ (mkInf 1).special = SPECIAL_NAN then mkNaN
        else if mkZeroNum.special = SPECIAL_ZERO ∨ (mkInf 1).special = SPECIAL_ZERO then
          mkZeroNum
        else if mkZeroNum.sign * (mkInf 1).sign > 0 then mkInf 1 else mkInf (-1)) :=
  ⟨by decide, by decide, by decide,
    mul_special_table_amended mkZeroNum (mkInf 1) (by decide) (by decide) (by decide)⟩

/-! Claim C3 -/

/-- The carry-overflow branch of `_normalize` is dead code: after the shift
the significand has exactly `targetBits` bits, so incrementing it yields at
most `2 ^ targetBits`, and the source's strict test
`significand > (1n << BigInt(targetBits))` can never fire. -/
theorem normalize_carry_branch_dead (s : BigFloat)
    (hW : targetBitsOf s.precision < bitlen s.significand) :
    ¬ (s.significand / 2 ^ (bitlen s.significand - targetBitsOf s.precision) + 1 >
        2 ^ targetBitsOf s.precision) := by
  intro hgt
  have hlt : s.significand < 2 ^ bitlen s.significand := lt_two_pow_bitlen s.significand
  have hsplit : bitlen s.significand =
      (bitlen s.significand - targetBitsOf s.precision) + targetBitsOf s.precision := by
    omega
  have hdiv : s.significand / 2 ^ (bitlen s.significand - targetBitsOf s.precision) <
      2 ^ targetBitsOf s.precision := by
    rw [Nat.div_lt_iff_lt_mul (Nat.pos_pow_of_pos _ (by norm_num))]
    calc s.significand < 2 ^ bitlen s.significand := hlt
      _ = 2 ^ targetBitsOf s.precision *
          2 ^ (bitlen s.significand - targetBitsOf s.precision) := by
        rw [← pow_add]
        congr 1
        omega
  omega

/-- C3: the rounding carry that grows the significand to `W + 1` bits is
not renormalized.  At precision 1 (`W = targetBitsOf 1 = 7`), significand
255 with NEAREST rounding rounds up to `128 = 2 ^ 7`, which has `W + 1 = 8`
bits; the source keeps it and leaves the exponent unchanged, violating the
invariant `bitlen(significand) ≤ W`, because its overflow test uses `>`
where the spec's `significand = 2 ^ W` detection requires `≥`. -/
theorem normalize_overflow_invariant_violation :
    normalize { sign := 1, exponent := 7, significand := 255, precision := 1,
                rounding := ROUNDING_NEAREST, special := SPECIAL_NONE } =
      { sign := 1, exponent := 7, significand := 128, precision := 1,
        rounding := ROUNDING_NEAREST, special := SPECIAL_NONE } ∧
    targetBitsOf 1 = 7 ∧ bitlen 128 = 8 := by
  decide

/-! Claim C4 -/

/-- C4: when `_normalize` drops `d = b − W` excess bits, the round-up
decision is exactly the specified table: NEAREST rounds up iff the top
dropped bit (bit `d − 1`) is set (round-half-up, not half-to-even); UP
rounds up iff the sign is `+1` and the dropped bits are non-zero; DOWN
rounds up iff the sign is `−1` and the dropped bits are non-zero; ZERO
never rounds up. -/
theorem normalize_rounding_table (s : BigFloat) (d dropped shifted : Nat)
    (hW : targetBitsOf s.precision < bitlen s.significand)
    (hd : d = bitlen s.significand - targetBitsOf s.precision)
    (hdrop : dropped = s.significand % 2 ^ d)
    (hshift : shifted = s.significand / 2 ^ d)
    (hs : s.sign = 1 ∨ s.sign = -1) :
    (s.rounding = ROUNDING_NEAREST →
      (roundUpOf s.rounding s.sign d dropped shifted = true ↔
        dropped.testBit (d - 1) = true)) ∧
    (s.rounding = ROUNDING_UP →
      (roundUpOf s.rounding s.sign d dropped shifted = true ↔
        s.sign = 1 ∧ dropped ≠ 0)) ∧
    (s.rounding = ROUNDING_DOWN →
      (roundUpOf s.rounding s.sign d dropped shifted = true ↔
        s.sign = -1 ∧ dropped ≠ 0)) ∧
    (s.rounding = ROUNDING_ZERO →
      roundUpOf s.rounding s.sign d dropped shifted = false) := by
  refine ⟨?_, ?_, ?_, ?_⟩ <;> intro hr <;> rw [hr]
  · -- NEAREST: test the single bit at position d − 1
    simp only [roundUpOf, if_true, eq_self_iff_true]
    rw [decide_eq_true_iff, Nat.one_shiftLeft, Nat.and_two_pow]
    cases hbit : dropped.testBit (d - 1) <;>
      simp [hbit, pow_ne_zero]
  · -- UP: positive sign and a non-zero remainder
    simp only [roundUpOf, ROUNDING_UP, ROUNDING_NEAREST]
    norm_num
    rcases hs with h' | h' <;> simp [h', Nat.pos_iff_ne_zero]
  · -- DOWN: negative sign and a non-zero remainder
    simp only [roundUpOf, ROUNDING_DOWN, ROUNDING_NEAREST, ROUNDING_UP]
    norm_num
    rcases hs with h' | h' <;> simp [h', Nat.pos_iff_ne_zero]
  · -- ZERO: truncate, never round up
    simp [roundUpOf, ROUNDING_ZERO, ROUNDING_NEAREST, ROUNDING_UP, ROUNDING_DOWN]

/-- C4 witness: precision 1, significand 255, NEAREST: one dropped bit,
set, so the magnitude rounds up. -/
theorem normalize_rounding_table_witness :
    (targetBitsOf (1 : Nat) < bitlen 255) ∧
      ((({ sign := 1, exponent := 7, significand := 255, precision := 1,
           rounding := ROUNDING_NEAREST, special := SPECIAL_NONE } :
            BigFloat).rounding = ROUNDING_NEAREST →
        (roundUpOf ROUNDING_NEAREST 1 1 1 127 = true ↔
          Nat.testBit 1 (1 - 1) = true)) ∧
       (({ sign := 1, exponent := 7, significand := 255, precision := 1,
           rounding := ROUNDING_NEAREST, special := SPECIAL_NONE } :
            BigFloat).rounding = ROUNDING_UP →
        (roundUpOf ROUNDING_NEAREST 1 1 1 127 = true ↔ (1 : Int) = 1 ∧ (1 : Nat) ≠ 0)) ∧
       (({ sign := 1, exponent := 7, significand := 255, precision := 1,
           rounding := ROUNDING_NEAREST, special := SPECIAL_NONE } :
            BigFloat).rounding = ROUNDING_DOWN →
        (roundUpOf ROUNDING_NEAREST 1 1 1 127 = true ↔ (1 : Int) = -1 ∧ (1 : Nat) ≠ 0)) ∧
       (({ sign := 1, exponent := 7, significand := 255, precision := 1,
           rounding := ROUNDING_NEAREST, special := SPECIAL_NONE } :
            BigFloat).rounding = ROUNDING_ZERO →
        roundUpOf ROUNDING_NEAREST 1 1 1 127 = false)) :=
  ⟨by decide,
    normalize_rounding_table
      { sign := 1, exponent := 7, significand := 255, precision := 1,
        rounding := ROUNDING_NEAREST, special := SPECIAL_NONE }
      1 1 127 (by decide) (by decide) (by decide) (by decide) (by decide)⟩

/-! Claim C5 -/

/-- C5 counterexample: `add(a, neg(a))` at operand precision 30 returns a
zero whose precision field is the process default 20, not the working
precision `max(a.precision, b.precision) = 30`. -/
theorem add_cancellation_precision_counterexample :
    (add (ofNumberInt 1 30 0) (neg (ofNumberInt 1 30 0))).precision = 20 ∧
      max (ofNumberInt 1 30 0).precision (neg (ofNumberInt 1 30 0)).precision = 30 ∧
      (20 : Nat) ≠ 30 := by
  decide

/-- C5 (amended): when the signed aligned sum of two NORMAL operands is
zero, `add` returns `new BigFloat(0n)` — a `+ZERO` carrying the
process-wide default precision (initially 20), not the working precision. -/
theorem add_zero_sum_amended (a b : BigFloat)
    (ha : a.special = SPECIAL_NONE) (hb : b.special = SPECIAL_NONE)
    (hsum : alignedSum a b = 0) :
    add a b = ofBigInt 0 defaultPrecision defaultRounding ∧
      (ofBigInt 0 defaultPrecision defaultRounding).sign = 1 ∧
      (ofBigInt 0 defaultPrecision defaultRounding).special = SPECIAL_ZERO ∧
      (ofBigInt 0 defaultPrecision defaultRounding).precision = defaultPrecision := by
  refine ⟨?_, by decide, by decide, by decide⟩
  unfold add
  rw [if_neg (by simp [ha, hb, SPECIAL_NONE])]
  simp [addNormal, hsum]

/-- C5 witness: `1` at precision 30 plus its negation. -/
theorem add_zero_sum_amended_witness :
    (ofNumberInt 1 30 0).special = SPECIAL_NONE ∧
      (neg (ofNumberInt 1 30 0)).special = SPECIAL_NONE ∧
      alignedSum (ofNumberInt 1 30 0) (neg (ofNumberInt 1 30 0)) = 0 ∧
      (add (ofNumberInt 1 30 0) (neg (ofNumberInt 1 30 0)) =
          ofBigInt 0 defaultPrecision defaultRounding ∧
        (ofBigInt 0 defaultPrecision defaultRounding).sign = 1 ∧
        (ofBigInt 0 defaultPrecision defaultRounding).special = SPECIAL_ZERO ∧
        (ofBigInt 0 defaultPrecision defaultRounding).precision = defaultPrecision) :=
  ⟨by decide, by decide, by decide,
    add_zero_sum_amended (ofNumberInt 1 30 0) (neg (ofNumberInt 1 30 0))
      (by decide) (by decide) (by decide)⟩

/-! Claim C6 -/

/-- C6: the `frexp`/`ldexp` round trip does not reconstruct the value.
`frexp` returns the clone with its `_exponent` left in place together with
that same exponent, so `ldexp` doubles the exponent: for `x = 2`
(significand 2, exponent 1) the round trip yields exponent 2 — the value 4,
not 2. -/
theorem frexp_ldexp_roundtrip_failure :
    ldexp (frexp (ofNumberInt 2 20 0)).1 (frexp (ofNumberInt 2 20 0)).2 ≠
        ofNumberInt 2 20 0 ∧
      frexp (ofNumberInt 2 20 0) = (ofNumberInt 2 20 0, 1) ∧
      (ldexp (frexp (ofNumberInt 2 20 0)).1 (frexp (ofNumberInt 2 20 0)).2).exponent = 2 ∧
      (ofNumberInt 2 20 0).exponent = 1 := by
  decide

/-! Claim C7 -/

/-- C7 counterexample: `fmod(1, 0)` throws
`Error("Division by zero in fmod")` — an out-of-band signal from an
operation other than `toBigInt`. -/
theorem fmod_zero_divisor_throws :
    fmodHead (ofNumberInt 1 20 0) mkZeroNum = .error ("Division by zero in fmod") ∧
      mkZeroNum.significand = 0 :=
  ⟨rfl, rfl⟩

/-- C7 (amended): `toBigInt` throws exactly on NaN and INF, but it is not
the only throwing operation of the public surface.  `fmod(a, b)` throws
exactly when the divisor's significand is zero (which includes `b = 0` and
the NaN/INF records the constructors build, since those carry
significand 0), and `pow(p, q)` throws a TypeError exactly when `p` is a
negative infinity and `q` is neither NaN, nor zero-significand, nor
negative — its negative-infinite-base branch calls the non-existent static
`BigFloat.isInteger`. -/
theorem throwing_surface_amended (x a b p q : BigFloat) :
    ((∃ e, toBigIntE x = .error e) ↔
      (x.special = SPECIAL_NAN ∨ x.special = SPECIAL_INF)) ∧
    ((∃ e, fmodHead a b = .error e) ↔ b.significand = 0) ∧
    ((∃ e, powHead p q = .error e) ↔
      (p.special ≠ SPECIAL_NAN ∧ q.special ≠ SPECIAL_NAN ∧
        p.special = SPECIAL_INF ∧
        ¬(q.special = SPECIAL_ZERO ∨ q.significand = 0) ∧
        ¬q.sign < 0 ∧ p.sign < 0)) := by
  refine ⟨?_, ?_, ?_⟩
  · unfold toBigIntE
    split_ifs with h1 h2 h3 <;> simp_all
  · unfold fmodHead
    split_ifs with h1 <;> simp_all
  · unfold powHead
    split_ifs with h1 h2 h3 h4 h5 h6 <;> simp_all

/-! Claim C8 -/

/-- C8: `pow(−∞, y)` for a finite positive integer `y` does not return the
parity-signed infinity: the negative-base branch calls the non-existent
static `BigFloat.isInteger`, so the call throws a TypeError for odd and
even `y` alike (and even its two `return` statements both produce
`+Infinity`, never `−∞`). -/
theorem pow_neg_inf_integer_throws :
    powHead (mkInf (-1)) (ofNumberInt 3 20 0) =
        .error ("TypeError: BigFloat.isInteger is not a function") ∧
      powHead (mkInf (-1)) (ofNumberInt 2 20 0) =
        .error ("TypeError: BigFloat.isInteger is not a function") :=
  ⟨rfl, rfl⟩

/-! Claim C9 -/

/-- C9 counterexample: `div` mutates its second operand: with
`a.precision = 30` and `b = 3` at precision 20, the aliased write
`inv._precision = prec` leaves `b` with precision 30 after the call. -/
theorem div_mutates_divisor_precision :
    (divHead (ofNumberInt 5 30 0) (ofNumberInt 3 20 0)).bFinal ≠ ofNumberInt 3 20 0 ∧
      (divHead (ofNumberInt 5 30 0) (ofNumberInt 3 20 0)).bFinal.precision = 30 ∧
      (ofNumberInt 3 20 0).precision = 20 := by
  decide

/-- C9 (amended): `div` never mutates `a`, and mutates `b` in at most one
field: either `b` is returned untouched (when an early special/`b = 1` path
returns first) or `b.precision` has been overwritten with
`max(a.precision, b.precision)`. -/
theorem div_operand_effect_amended (a b : BigFloat) :
    (divHead a b).bFinal = b ∨
      (divHead a b).bFinal = { b with precision := max a.precision b.precision } := by
  unfold divHead
  split_ifs <;> first | exact Or.inl rfl | exact Or.inr rfl

/-! Claim C10 -/

/-- C10 counterexample: `add(0.5, 0.5)` stores significand 2 with exponent
0 while the constructor's 1 stores significand 1 with exponent 0; `equal`
on the two representations of the value 1 returns false, yet `cmp` returns
0, refuting `equal(a, b) = true ⇔ cmp(a, b) = 0`. -/
theorem equal_cmp_disagree_counterexample :
    equal (add (ldexp (ofNumberInt 1 20 0) (-1)) (ldexp (ofNumberInt 1 20 0) (-1)))
        (ofNumberInt 1 20 0) = false ∧
      cmp (add (ldexp (ofNumberInt 1 20 0) (-1)) (ldexp (ofNumberInt 1 20 0) (-1)))
        (ofNumberInt 1 20 0) = 0 := by
  decide

/-- C10 (amended): for finite values satisfying the representation
invariants only one direction holds: `equal(a, b) = true` implies
`cmp(a, b) = 0`.  The converse fails, because `equal` compares the stored
fields directly and distinguishes trailing-zero representations of the same
value that `cmp` identifies. -/
theorem equal_implies_cmp_zero_amended (a b : BigFloat)
    (ha : a.special = SPECIAL_ZERO ∨ a.special = SPECIAL_NONE)
    (hb : b.special = SPECIAL_ZERO ∨ b.special = SPECIAL_NONE)
    (hza : a.special = SPECIAL_ZERO ↔ a.significand = 0)
    (hzb : b.special = SPECIAL_ZERO ↔ b.significand = 0)
    (hsa : a.special = SPECIAL_ZERO → a.sign = 1)
    (hsb : b.special = SPECIAL_ZERO → b.sign = 1)
    (h : equal a b = true) : cmp a b = 0 := by
  have h1 : less a b = false := less_eq_false_of_equal a b ha hb hza hzb hsa hsb h
  have h2 : less b a = false :=
    less_eq_false_of_equal b a hb ha hzb hza hsb hsa (by rw [← equal_comm]; exact h)
  simp [cmp, h1, h2]

/-- C10 witness: a normal value compared with itself. -/
theorem equal_implies_cmp_zero_amended_witness :
    ((ofNumberInt 1 20 0).special = SPECIAL_ZERO ∨
        (ofNumberInt 1 20 0).special = SPECIAL_NONE) ∧
      equal (ofNumberInt 1 20 0) (ofNumberInt 1 20 0) = true ∧
      cmp (ofNumberInt 1 20 0) (ofNumberInt 1 20 0) = 0 :=
  ⟨by decide, by decide,
    equal_implies_cmp_zero_amended (ofNumberInt 1 20 0) (ofNumberInt 1 20 0)
      (by decide) (by decide) (by decide) (by decide) (by decide) (by decide) (by decide)⟩

end BigFloatJS
